import Mathlib

/-!
Shallow embedding of the detection-consensus and smart-cropping core of the
LoRA-Harvester repository, together with theorems settling the spec claims.

Source files embedded:
  * src/src/core/ensemble_detector.py  (Detection, calculate_iou, ensemble_voting,
    get_primary_subject, voting-threshold clamp from __init__)
  * src/src/core/detector.py           (ObjectDetector.get_primary_subject — same
    algorithm as the ensemble variant)
  * src/src/core/cropper.py            (SmartCropper.ASPECT_RATIOS, __init__,
    calculate_crop_box)
  * src/src/core/unified_processor.py  (_process_video_standard, _process_video_turbo,
    _process_batch, _process_single_frame)
  * src/src/core/optimized_processor.py (OptimizedVideoProcessor.process_video,
    _process_batch)
  * src/src/core/video_processor.py    (VideoProcessor.process_video — same
    per-frame sequence as the unified standard driver)

Python ints are modelled as ℤ (or ℕ for counters), Python floats as exact
rationals ℚ, Python `int(...)` truncation as `pyint`, and Python `//` as
`Int.fdiv` (floor division).  Fallible results are `Option`.
-/

/-- Axis-aligned bounding box [x1, y1, x2, y2] in integer pixel coordinates,
as used by the `bbox` lists throughout the repository. -/
structure BBox where
  x1 : ℤ
  y1 : ℤ
  x2 : ℤ
  y2 : ℤ
deriving DecidableEq, Repr

/-- One detection, mirroring the `Detection` dataclass of ensemble_detector.py. -/
structure Detection where
  bbox : BBox
  confidence : ℚ
  class_id : ℤ
  class_name : String
  model_source : String
deriving DecidableEq, Repr

/-- The three detection categories used by the detectors and drivers. -/
inductive Category where
  | person : Category
  | animal : Category
  | object : Category
deriving DecidableEq, Repr

/-- Categorized detections: the `{'person': [...], 'animal': [...], 'object': [...]}`
dictionary produced by `ObjectDetector.detect` / `EnsembleDetector.detect`. -/
structure Categorized where
  person : List Detection
  animal : List Detection
  object : List Detection
deriving DecidableEq, Repr

/-- Python `int(...)` applied to a real value: truncation toward zero. -/
def pyint (q : ℚ) : ℤ := if q < 0 then ⌈q⌉ else ⌊q⌋

/-- `EnsembleDetector.calculate_iou`: standard axis-aligned intersection over
union, returning 0 when the boxes do not overlap or the union is empty. -/
def calculate_iou (box1 box2 : BBox) : ℚ :=
  let x1i := max box1.x1 box2.x1
  let y1i := max box1.y1 box2.y1
  let x2i := min box1.x2 box2.x2
  let y2i := min box1.y2 box2.y2
  if x2i < x1i ∨ y2i < y1i then 0
  else
    let inter : ℤ := (x2i - x1i) * (y2i - y1i)
    let area1 : ℤ := (box1.x2 - box1.x1) * (box1.y2 - box1.y1)
    let area2 : ℤ := (box2.x2 - box2.x1) * (box2.y2 - box2.y1)
    let uni : ℤ := area1 + area2 - inter
    if 0 < uni then (inter : ℚ) / (uni : ℚ) else 0

/-- The matching test of the grouping loop in `ensemble_voting`:
`iou >= self.iou_threshold and detection.class_id == group_det.class_id`. -/
def matchesDet (th : ℚ) (d m : Detection) : Bool :=
  decide (th ≤ calculate_iou d.bbox m.bbox) && decide (d.class_id = m.class_id)

/-- The inner loops of `ensemble_voting`: scan the existing groups in creation
order; append `d` to the first group containing a matching member (first-match
policy).  Returns `none` when no group matches. -/
def tryJoin (th : ℚ) (d : Detection) : List (List Detection) → Option (List (List Detection))
  | [] => none
  | g :: gs =>
    if g.any (matchesDet th d) then some ((g ++ [d]) :: gs)
    else (tryJoin th d gs).map (g :: ·)

/-- One step of the grouping loop: join an existing group, or else append a
new singleton group. -/
def joinStep (th : ℚ) (gs : List (List Detection)) (d : Detection) : List (List Detection) :=
  (tryJoin th d gs).getD (gs ++ [[d]])

/-- The full grouping phase of `ensemble_voting`, processing detections in
input order starting from no groups. -/
def buildGroups (th : ℚ) (l : List Detection) : List (List Detection) :=
  l.foldl (joinStep th) []

/-- Distinct elements of a list, keeping the first occurrence of each.
`ensemble_voting` computes `set(det.model_source for det in group)`; a Python
set is unordered (hash-dependent iteration), so the embedding fixes the order
of first appearance as its deterministic representative. -/
def distinctFirst : List String → List String
  | [] => []
  | s :: rest => s :: (distinctFirst rest).filter (fun t => t ≠ s)

/-- `model_votes = set(det.model_source for det in group)` from `ensemble_voting`. -/
def modelVotes (g : List Detection) : List String :=
  distinctFirst (g.map Detection.model_source)

def commaStr : String := ","

def lparStr : String := "("

def rparStr : String := ")"

/-- The `model_source` label `f"ensemble({','.join(model_votes)})"` synthesized
for a consensus detection (join order is set-iteration order in Python,
modelled by `distinctFirst`). -/
def ensembleLabel (g : List Detection) : String :=
  "ensemble" ++ lparStr ++ String.intercalate commaStr (modelVotes g) ++ rparStr

/-- `int(np.mean(xs))` for a list of integer coordinates. -/
def meanCoord (xs : List ℤ) : ℤ := pyint ((xs.sum : ℚ) / (xs.length : ℚ))

/-- `max(d.confidence for d in group)` (0 for the never-occurring empty group). -/
def maxConf : List Detection → ℚ
  | [] => 0
  | d :: ds => ds.foldl (fun m x => max m x.confidence) d.confidence

/-- `class_id` of the first group member (0 for the never-occurring empty group). -/
def headClassId : List Detection → ℤ
  | [] => 0
  | d :: _ => d.class_id

/-- `class_name` of the first group member. -/
def headClassName : List Detection → String
  | [] => ""
  | d :: _ => d.class_name

/-- The consensus detection synthesized from a qualifying group in
`ensemble_voting`: coordinate-wise mean bbox, max confidence, class of the
first member, `ensemble(...)` model label. -/
def mkConsensus (g : List Detection) : Detection :=
  { bbox :=
      { x1 := meanCoord (g.map (fun d => d.bbox.x1))
        y1 := meanCoord (g.map (fun d => d.bbox.y1))
        x2 := meanCoord (g.map (fun d => d.bbox.x2))
        y2 := meanCoord (g.map (fun d => d.bbox.y2)) }
    confidence := maxConf g
    class_id := headClassId g
    class_name := headClassName g
    model_source := ensembleLabel g }

/-- `EnsembleDetector.ensemble_voting` with iou threshold `th` and (clamped)
voting threshold `vt`: group the detections, keep the groups reaching `vt`
distinct model votes, and emit one consensus detection per kept group. -/
def ensemble_voting (th : ℚ) (vt : ℕ) (l : List Detection) : List Detection :=
  if l.isEmpty then []
  else
    ((buildGroups th l).filter (fun g => decide (vt ≤ (modelVotes g).length))).map mkConsensus

/-- The clamp `self.voting_threshold = min(voting_threshold, len(models_to_use))`
from `EnsembleDetector.__init__`. -/
def clampVoting (vt numModels : ℕ) : ℕ := min vt numModels

/-- `SmartCropper.ASPECT_RATIOS`: the class-level table of supported target
formats (width/height).  Note the source lists only these four entries. -/
def ASPECT_RATIOS (fmt : String) : Option ℚ :=
  if fmt = "9:16" then some (9 / 16)
  else if fmt = "3:4" then some (3 / 4)
  else if fmt = "1:1" then some 1
  else if fmt = "4:5" then some (4 / 5)
  else none

/-- `SmartCropper.__init__`: `self.aspect_ratio = self.ASPECT_RATIOS.get(target_format, 9/16)`. -/
def initAspect (target_format : String) : ℚ := (ASPECT_RATIOS target_format).getD (9 / 16)

/-- The aspect-ratio fit of `calculate_crop_box`: given padded dimensions,
produce (crop_width, crop_height) in the width-constrained or
height-constrained branch (`int(...)` truncation as in the source). -/
def fitAspect (ar : ℚ) (pw ph : ℤ) : ℤ × ℤ :=
  if (pw : ℚ) / (ph : ℚ) > ar then (pw, pyint ((pw : ℚ) / ar))
  else (pyint ((ph : ℚ) * ar), ph)

/-- The frame-bound scale-down of `calculate_crop_box`: if the crop exceeds the
frame in either dimension, scale both dimensions by
`min(frame_width/crop_width, frame_height/crop_height)`. -/
def scaleToFrame (fw fh cw ch : ℤ) : ℤ × ℤ :=
  if cw > fw ∨ ch > fh then
    let scale : ℚ := min ((fw : ℚ) / (cw : ℚ)) ((fh : ℚ) / (ch : ℚ))
    (pyint ((cw : ℚ) * scale), pyint ((ch : ℚ) * scale))
  else (cw, ch)

/-- The head-room adjustment of `calculate_crop_box` (persons only, when
`head_space_ratio > 0`): shift the subject's vertical center by
`int(crop_height * 0.1)` when the head-space ratio is below 0.05 (up) or above
0.25 (down).  The float constants are modelled as exact rationals. -/
def adjustCenterY (cat : Category) (hsr : ℚ) (ch scy : ℤ) : ℤ :=
  if cat = Category.person ∧ hsr > 0 then
    if hsr < 1 / 20 then scy - pyint ((ch : ℚ) * (1 / 10))
    else if hsr > 1 / 4 then scy + pyint ((ch : ℚ) * (1 / 10))
    else scy
  else scy

/-- The final positioning clamp of `calculate_crop_box`:
`max(0, min(c, limit))`. -/
def clampPos (c limit : ℤ) : ℤ := max 0 (min c limit)

/-- `SmartCropper.calculate_crop_box`: frame shape is (height, width), the
subject bbox is [x1, y1, x2, y2]; returns `(crop_x, crop_y, crop_width,
crop_height)`.  The Python signature is `Optional`, hence the `Option` result;
the body always reaches its single `return` of a tuple. -/
def calculate_crop_box (ar : ℚ) (min_padding : ℤ) (frame_height frame_width : ℤ)
    (bb : BBox) (cat : Category) (hsr : ℚ) : Option (ℤ × ℤ × ℤ × ℤ) :=
  let subject_width := bb.x2 - bb.x1
  let subject_height := bb.y2 - bb.y1
  let subject_center_x := Int.fdiv (bb.x1 + bb.x2) 2
  let subject_center_y := Int.fdiv (bb.y1 + bb.y2) 2
  let padded_width := subject_width + 2 * min_padding
  let padded_height := subject_height + 2 * min_padding
  let dims := fitAspect ar padded_width padded_height
  let dims2 := scaleToFrame frame_width frame_height dims.1 dims.2
  let crop_width := dims2.1
  let crop_height := dims2.2
  let scy := adjustCenterY cat hsr crop_height subject_center_y
  let crop_x := subject_center_x - Int.fdiv crop_width 2
  let crop_y := scy - Int.fdiv crop_height 2
  some (clampPos crop_x (frame_width - crop_width),
        clampPos crop_y (frame_height - crop_height),
        crop_width, crop_height)

/-- `area = (bbox[2] - bbox[0]) * (bbox[3] - bbox[1])` from `get_primary_subject`. -/
def bboxArea (b : BBox) : ℤ := (b.x2 - b.x1) * (b.y2 - b.y1)

/-- `score = area * det['confidence']` from `get_primary_subject`. -/
def scoreOf (s : Category × Detection) : ℚ := (bboxArea s.2.bbox : ℚ) * s.2.confidence

/-- Stable descending insertion by score: the new element (earlier in the
original enumeration than everything already placed) goes before the first
element whose score does not exceed it. -/
def insertByScore (a : Category × Detection) :
    List (Category × Detection) → List (Category × Detection)
  | [] => [a]
  | b :: bs => if scoreOf b ≤ scoreOf a then a :: b :: bs else b :: insertByScore a bs

/-- `all_subjects.sort(key=lambda x: x[2], reverse=True)`: Python's sort is a
stable descending sort by score; a stable sort under a total preorder has a
unique result, realised here by right-fold insertion. -/
def sortByScoreDesc (l : List (Category × Detection)) : List (Category × Detection) :=
  l.foldr insertByScore []

/-- The enumeration of `get_primary_subject`: all person detections, then all
animal detections, then all object detections, each in list order, tagged with
their category. -/
def allSubjects (d : Categorized) : List (Category × Detection) :=
  d.person.map (fun x => (Category.person, x)) ++
  d.animal.map (fun x => (Category.animal, x)) ++
  d.object.map (fun x => (Category.object, x))

/-- `ObjectDetector.get_primary_subject` / `EnsembleDetector.get_primary_subject`
(identical algorithm): score every detection across the three categories, sort
descending by score, and return the first, or `(None, None)` when there are no
detections. -/
def get_primary_subject (d : Categorized) : Option (Category × Detection) :=
  (sortByScoreDesc (allSubjects d)).head?

/-- The per-frame pipeline outcome once the text gate has been passed, as seen
by `_process_single_frame`: no primary subject, `calculate_crop_box` returned
`None`, quality at most 0.3 (silently dropped), or a save in one category.
The detector / cropper / quality results are oracles fixed per frame, so both
drivers observe the same outcome for the same frame. -/
inductive FrameOutcome where
  | noDetection : FrameOutcome
  | cropNone : FrameOutcome
  | lowQuality : FrameOutcome
  | saved : Category → FrameOutcome
deriving DecidableEq, Repr

/-- A sampled frame together with its fixed per-frame oracle results:
`hasText` is the `quick_text_check` verdict, `outcome` the result of the
detect/select/crop/score sequence. -/
structure FrameEval where
  fid : ℕ
  hasText : Bool
  outcome : FrameOutcome
deriving DecidableEq, Repr

/-- The statistics counters created by `_create_empty_stats` /
`VideoProcessor.__init__` (the wall-clock `processing_time` field is outside
the embedding). -/
structure Stats where
  processed_frames : ℕ
  saved_frames : ℕ
  skipped_text : ℕ
  skipped_no_detection : ℕ
  person_frames : ℕ
  animal_frames : ℕ
  object_frames : ℕ
deriving DecidableEq, Repr

/-- All counters start at zero. -/
def emptyStats : Stats :=
  { processed_frames := 0, saved_frames := 0, skipped_text := 0,
    skipped_no_detection := 0, person_frames := 0, animal_frames := 0,
    object_frames := 0 }

/-- Driver state: the counters plus the log of `save_cropped_frame` calls
(frame number and category directory), one entry per image written. -/
def DriverState : Type := Stats × List (ℕ × Category)

/-- `self.stats[f'{category}_frames'] += 1`. -/
def bumpCat (s : Stats) : Category → Stats
  | Category.person => { s with person_frames := s.person_frames + 1 }
  | Category.animal => { s with animal_frames := s.animal_frames + 1 }
  | Category.object => { s with object_frames := s.object_frames + 1 }

/-- The tail of `_process_single_frame` after the text gate: detection, primary
subject, crop, quality check and save, with the corresponding counter updates. -/
def applyOutcome (st : DriverState) (f : FrameEval) : DriverState :=
  match f.outcome with
  | FrameOutcome.noDetection =>
      ({ st.1 with skipped_no_detection := st.1.skipped_no_detection + 1 }, st.2)
  | FrameOutcome.cropNone => st
  | FrameOutcome.lowQuality => st
  | FrameOutcome.saved cat =>
      (bumpCat { st.1 with saved_frames := st.1.saved_frames + 1 } cat,
       st.2 ++ [(f.fid, cat)])

/-- The flags governing the text gate: `skip_text`, presence of
`self.text_detector`, and `use_quick_text_check`. -/
structure GateCfg where
  skip_text : Bool
  text_detector : Bool
  use_quick_text : Bool
deriving DecidableEq, Repr

/-- The text gate of `_process_single_frame` / `_process_batch`:
`skip_text and self.text_detector` and then
`use_quick_text and self.text_detector.quick_text_check(frame)`. -/
def textGate (p : GateCfg) (f : FrameEval) : Bool :=
  p.skip_text && p.text_detector && p.use_quick_text && f.hasText

/-- `self.stats['skipped_text'] += 1`. -/
def bumpText (st : DriverState) : DriverState :=
  ({ st.1 with skipped_text := st.1.skipped_text + 1 }, st.2)

/-- `self.stats['processed_frames'] += 1`. -/
def bumpProcessed (st : DriverState) : DriverState :=
  ({ st.1 with processed_frames := st.1.processed_frames + 1 }, st.2)

/-- One sampled frame of `_process_video_standard`: `processed_frames` is
incremented first, then `_process_single_frame` runs with the text gate live. -/
def stdStep (p : GateCfg) (st : DriverState) (f : FrameEval) : DriverState :=
  if textGate p f then bumpText (bumpProcessed st) else applyOutcome (bumpProcessed st) f

/-- `_process_video_standard` over a sequence of sampled frames (no
cancellation; `VideoProcessor.process_video` performs the same per-frame
sequence). -/
def stdRun (p : GateCfg) (frames : List FrameEval) : DriverState :=
  frames.foldl (stdStep p) (emptyStats, [])

/-- Phase 2 step of `_process_batch` for an unmasked frame: count it processed
and run `_process_single_frame(frame, n, False, False)` (gate off). -/
def procStep (st : DriverState) (f : FrameEval) : DriverState :=
  applyOutcome (bumpProcessed st) f

/-- Phase 1 loop body of `_process_batch`: a frame flagged by the quick text
check only bumps `skipped_text` (it is masked out of phase 2). -/
def gateStep (p : GateCfg) (st : DriverState) (f : FrameEval) : DriverState :=
  if textGate p f then bumpText st else st

/-- Phase 2 loop body of `_process_batch`: masked frames are skipped, the
rest are processed. -/
def maskStep (p : GateCfg) (st : DriverState) (f : FrameEval) : DriverState :=
  if textGate p f then st else procStep st f

/-- `_process_batch` (identical in unified_processor.py and
optimized_processor.py): first the quick text pre-filter marks frames and
counts `skipped_text`; then every unmarked frame is processed. -/
def processBatch (p : GateCfg) (st : DriverState) (b : List FrameEval) : DriverState :=
  b.foldl (maskStep p) (b.foldl (gateStep p) st)

/-- The accumulation loop of `_process_video_turbo` over the sampled frames
(no cancellation): batch up to `bs` frames, flush full batches, flush the
final partial batch at end of stream. -/
def turboLoop (p : GateCfg) (bs : ℕ) : List FrameEval → List FrameEval → DriverState → DriverState
  | [], batch, st => if batch.isEmpty then st else processBatch p st batch
  | f :: rest, batch, st =>
    let batch' := batch ++ [f]
    if bs ≤ batch'.length then turboLoop p bs rest [] (processBatch p st batch')
    else turboLoop p bs rest batch' st

/-- `_process_video_turbo` over a sequence of sampled frames (no cancellation). -/
def turboRun (p : GateCfg) (bs : ℕ) (frames : List FrameEval) : DriverState :=
  turboLoop p bs frames [] (emptyStats, [])

/-- The combined per-frame effect of `_process_batch` (text-masked frames only
bump `skipped_text`; the rest are processed); used to relate the two drivers. -/
def tStep (p : GateCfg) (st : DriverState) (f : FrameEval) : DriverState :=
  if textGate p f then bumpText st else procStep st f

/-- The correspondence between the turbo driver's state and the standard
driver's state over the same sampled frames: identical save log and counters,
except that the standard driver additionally counts text-skipped frames in
`processed_frames`. -/
def DriverRel (s t : DriverState) : Prop :=
  s.2 = t.2 ∧ s.1.saved_frames = t.1.saved_frames ∧ s.1.skipped_text = t.1.skipped_text ∧
  s.1.skipped_no_detection = t.1.skipped_no_detection ∧
  s.1.person_frames = t.1.person_frames ∧ s.1.animal_frames = t.1.animal_frames ∧
  s.1.object_frames = t.1.object_frames ∧
  s.1.processed_frames + s.1.skipped_text = t.1.processed_frames

/-- The sampling filter of the read loops: of the frames read with running
1-based counter starting after `cnt`, keep those whose counter is an exact
multiple of `interval` (`frame_count % frame_interval == 0`). -/
def sampledFrom {α : Type} (interval cnt : ℕ) : List α → List α
  | [] => []
  | f :: rest =>
    if (cnt + 1) % interval = 0 then f :: sampledFrom interval (cnt + 1) rest
    else sampledFrom interval (cnt + 1) rest

/-- The read loop of `UnifiedVideoProcessor._process_video_turbo` with a live
stop callback, modelled as a predicate on the loop-iteration index (the
callback is polled once at the top of each iteration; a cancellation signal is
persistent, here `stop = fun i => K ≤ i`).  State: frames not yet read, the
iteration index, the running `frame_count`, the accumulated batch, and the
frames handed to `_process_batch` so far (in processing order).  Returns the
processed frames and the number of frames read.  On stop, the pending batch is
flushed (`if frame_batch: self._process_batch(...)`) before breaking. -/
def turboStopLoop {α : Type} (stop : ℕ → Bool) (interval bs : ℕ) :
    List α → ℕ → ℕ → List α → List α → List α × ℕ
  | rem, iter, cnt, batch, acc =>
    if stop iter then (acc ++ batch, cnt)
    else
      match rem with
      | [] => (acc ++ batch, cnt)
      | f :: rest =>
        if (cnt + 1) % interval = 0 then
          let batch' := batch ++ [f]
          if bs ≤ batch'.length then
            turboStopLoop stop interval bs rest (iter + 1) (cnt + 1) [] (acc ++ batch')
          else turboStopLoop stop interval bs rest (iter + 1) (cnt + 1) batch' acc
        else turboStopLoop stop interval bs rest (iter + 1) (cnt + 1) batch acc

/-- `_process_video_turbo` with a cancellation signal that first fires at
iteration `K` and stays on. -/
def turboStopRun {α : Type} (K interval bs : ℕ) (frames : List α) : List α × ℕ :=
  turboStopLoop (fun i => decide (K ≤ i)) interval bs frames 0 0 [] []

/-- The read loop of `OptimizedVideoProcessor.process_video`: identical to the
unified turbo loop except that the stop branch breaks WITHOUT flushing the
accumulated batch (only the end-of-stream branch flushes). -/
def optStopLoop {α : Type} (stop : ℕ → Bool) (interval bs : ℕ) :
    List α → ℕ → ℕ → List α → List α → List α × ℕ
  | rem, iter, cnt, batch, acc =>
    if stop iter then (acc, cnt)
    else
      match rem with
      | [] => (acc ++ batch, cnt)
      | f :: rest =>
        if (cnt + 1) % interval = 0 then
          let batch' := batch ++ [f]
          if bs ≤ batch'.length then
            optStopLoop stop interval bs rest (iter + 1) (cnt + 1) [] (acc ++ batch')
          else optStopLoop stop interval bs rest (iter + 1) (cnt + 1) batch' acc
        else optStopLoop stop interval bs rest (iter + 1) (cnt + 1) batch acc

/-- `OptimizedVideoProcessor.process_video` with a cancellation signal that
first fires at iteration `K` and stays on. -/
def optStopRun {α : Type} (K interval bs : ℕ) (frames : List α) : List α × ℕ :=
  optStopLoop (fun i => decide (K ≤ i)) interval bs frames 0 0 [] []

/-- A sampled frame flagged by the quick text check. -/
def fTxt : FrameEval := { fid := 1, hasText := true, outcome := FrameOutcome.noDetection }

/-- Gate configuration with text skipping fully enabled. -/
def gateAll : GateCfg := { skip_text := true, text_detector := true, use_quick_text := true }

/-- Concrete detection from the `yolo` model (spec Scenario B shape). -/
def dYolo : Detection :=
  { bbox := { x1 := 0, y1 := 0, x2 := 100, y2 := 100 }, confidence := 9 / 10,
    class_id := 0, class_name := "person", model_source := "yolo" }

/-- Concrete detection from the `detr` model overlapping `dYolo` with IoU 4/5
and the same class. -/
def dDetr : Detection :=
  { bbox := { x1 := 0, y1 := 0, x2 := 100, y2 := 80 }, confidence := 4 / 5,
    class_id := 0, class_name := "person", model_source := "detr" }

/-- The consensus detection the embedding emits for `[dYolo, dDetr]` at voting
threshold 2: mean bbox, max confidence, `ensemble(yolo,detr)` label. -/
def consensusB : Detection :=
  { bbox := { x1 := 0, y1 := 0, x2 := 100, y2 := 90 }, confidence := 9 / 10,
    class_id := 0, class_name := "person", model_source := "ensemble(yolo,detr)" }

/-- Concrete person detection for the tie-break scenario of C9 (area 100,
confidence 1, score 100). -/
def pW : Detection :=
  { bbox := { x1 := 0, y1 := 0, x2 := 10, y2 := 10 }, confidence := 1,
    class_id := 0, class_name := "person", model_source := "yolo" }

/-- Concrete object detection tying the score of `pW` (area 100, confidence 1,
score 100). -/
def oW : Detection :=
  { bbox := { x1 := 0, y1 := 0, x2 := 20, y2 := 5 }, confidence := 1,
    class_id := 39, class_name := "bottle", model_source := "yolo" }

/-- Categorized detections with an exact score tie between a person and an
object detection. -/
def catsW : Categorized := { person := [pW], animal := [], object := [oW] }

/-- The spec's Scenario A subject bbox [800, 400, 1000, 700]. -/
def bbA : BBox := { x1 := 800, y1 := 400, x2 := 1000, y2 := 700 }

/-! ## Theorems -/

/-- Evaluation of the embedding at the spec's Scenario B input: exactly one
consensus detection, with mean bbox, max confidence and the `ensemble(...)`
model label. -/
theorem ensembleB_eval : ensemble_voting (1 / 2) 2 [dYolo, dDetr] = [consensusB] := by
  norm_num [ensemble_voting, buildGroups, joinStep, tryJoin, matchesDet, calculate_iou,
    mkConsensus, meanCoord, maxConf, headClassId, headClassName, ensembleLabel, modelVotes,
    distinctFirst, pyint, dYolo, dDetr, consensusB, commaStr, lparStr, rparStr,
    String.intercalate, String.intercalate.go, Int.floor_eq_iff, List.filter_cons,
    decide_eq_true_eq, show ("detr" : String) ≠ "yolo" from by decide]
  decide

/-- C1 (counterexample): at the spec's own Scenario B input — one `yolo` and
one `detr` detection of the same class with IoU 4/5 ≥ 1/2 and voting threshold
2 — the emitted consensus detection's `model_source` is NOT the bare sorted
comma-join "detr,yolo": the code wraps the (unsorted, set-ordered) join in
an `ensemble(...)` label. -/
theorem C1_cex :
    (ensemble_voting (1 / 2) 2 [dYolo, dDetr]).map Detection.model_source ≠ ["detr,yolo"] := by
  rw [ensembleB_eval]
  decide

/-- C1 (amended): every detection emitted by `ensemble_voting` comes from a
group meeting the voting threshold, and its `model_source` equals
`"ensemble(" ++ the comma-join of the distinct contributing model identifiers
++ ")"` (identifiers in Python-set iteration order, modelled as order of first
appearance), not the bare sorted comma-join. -/
theorem C1_model_source (th : ℚ) (vt : ℕ) (l : List Detection) (c : Detection)
    (hc : c ∈ ensemble_voting th vt l) :
    ∃ g, g ∈ buildGroups th l ∧ vt ≤ (modelVotes g).length ∧
      c.model_source = ensembleLabel g := by
  unfold ensemble_voting at hc
  cases hl : l.isEmpty with
  | true => rw [hl] at hc; simp at hc
  | false =>
    rw [hl] at hc
    simp only [if_neg Bool.false_ne_true] at hc
    rcases List.mem_map.mp hc with ⟨g, hg, hcg⟩
    rcases List.mem_filter.mp hg with ⟨hgm, hdec⟩
    exact ⟨g, hgm, of_decide_eq_true hdec, by rw [← hcg]; rfl⟩

/-- C1 (witness): the amended statement instantiated at the Scenario B input. -/
theorem C1_model_source_witness :
    ∃ g, g ∈ buildGroups (1 / 2) [dYolo, dDetr] ∧ 2 ≤ (modelVotes g).length ∧
      consensusB.model_source = ensembleLabel g :=
  C1_model_source (1 / 2) 2 [dYolo, dDetr] consensusB
    (by rw [ensembleB_eval]; exact List.mem_singleton.mpr rfl)

/-- C2: the aspect-ratio table honors the four formats it contains, but the
CLI- and UI-offered formats "16:9" and "4:3" are absent from
`SmartCropper.ASPECT_RATIOS`, so `__init__` silently falls back to 9/16 for
them instead of using 16/9 resp. 4/3. -/
theorem C2_aspect_fallback :
    initAspect "9:16" = 9 / 16 ∧ initAspect "3:4" = 3 / 4 ∧
    initAspect "1:1" = 1 ∧ initAspect "4:5" = 4 / 5 ∧
    initAspect "16:9" = 9 / 16 ∧ initAspect "4:3" = 9 / 16 ∧
    initAspect "16:9" ≠ 16 / 9 ∧ initAspect "4:3" ≠ 4 / 3 := by
  refine ⟨?_, ?_, ?_, ?_, ?_, ?_, ?_, ?_⟩ <;>
    (simp [initAspect, ASPECT_RATIOS]; try norm_num)

/-- C6: `calculate_crop_box` never reports infeasibility — for every input it
returns `some` crop box (the body has a single unconditional return), so the
drivers' `None` branch after computing the crop is unreachable. -/
theorem C6_always_some (ar : ℚ) (mp fh fw : ℤ) (bb : BBox) (cat : Category) (hsr : ℚ) :
    (calculate_crop_box ar mp fh fw bb cat hsr).isSome = true := rfl

/-- C7: for a fixed detection list and IoU threshold, the number of emitted
consensus detections is antitone in the clamped voting threshold: raising
`voting_threshold` (clamped to the number of configured models, as in
`__init__`) never increases the number of consensus detections. -/
theorem C7_antitone (th : ℚ) (l : List Detection) (n vt1 vt2 : ℕ) (h : vt1 ≤ vt2) :
    (ensemble_voting th (clampVoting vt2 n) l).length ≤
      (ensemble_voting th (clampVoting vt1 n) l).length := by
  unfold ensemble_voting
  cases hl : l.isEmpty with
  | true => simp
  | false =>
    simp only [if_neg Bool.false_ne_true, List.length_map]
    refine List.Sublist.length_le (List.monotone_filter_right _ ?_)
    intro g hg
    rw [decide_eq_true_eq] at hg ⊢
    unfold clampVoting at hg ⊢
    exact le_trans (min_le_min h le_rfl) hg

/-- C7 (witness): the antitonicity instantiated at Scenario B with thresholds
1 ≤ 2 over 2 configured models. -/
theorem C7_antitone_witness :
    1 ≤ 2 ∧ (ensemble_voting (1 / 2) (clampVoting 2 2) [dYolo, dDetr]).length ≤
      (ensemble_voting (1 / 2) (clampVoting 1 2) [dYolo, dDetr]).length :=
  ⟨by decide, C7_antitone (1 / 2) [dYolo, dDetr] 2 1 2 (by decide)⟩

/-- If every group in the scanned list is class-pure, a successful `tryJoin`
leaves every group class-pure: the joined detection's class equals the class
of the matched member, which equals that of the group's first member. -/
theorem tryJoin_purity (th : ℚ) (d : Detection) (gs : List (List Detection)) :
    ∀ gs', (∀ g ∈ gs, ∃ d0 rest, g = d0 :: rest ∧ ∀ x ∈ g, x.class_id = d0.class_id) →
      tryJoin th d gs = some gs' →
      ∀ g ∈ gs', ∃ d0 rest, g = d0 :: rest ∧ ∀ x ∈ g, x.class_id = d0.class_id := by
  induction gs with
  | nil => intro gs' _ hj; simp [tryJoin] at hj
  | cons g0 rest ih =>
    intro gs' hp hj
    rw [tryJoin] at hj
    by_cases hany : g0.any (matchesDet th d)
    · rw [if_pos hany] at hj
      simp only [Option.some.injEq] at hj
      subst hj
      rcases hp g0 (List.mem_cons_self g0 rest) with ⟨d0, r, hE, hall⟩
      rcases List.any_eq_true.mp hany with ⟨m, hm, hmatch⟩
      have hd : d.class_id = d0.class_id := by
        have h2 := of_decide_eq_true ((Bool.and_eq_true _ _).mp hmatch).2
        exact h2.trans (hall m hm)
      intro g hg
      rcases List.mem_cons.mp hg with hgeq | hgrest
      · subst hgeq
        refine ⟨d0, r ++ [d], by rw [hE]; rfl, ?_⟩
        intro x hx
        rcases List.mem_append.mp hx with hx1 | hx2
        · exact hall x hx1
        · rw [List.mem_singleton.mp hx2]; exact hd
      · exact hp g (List.mem_cons_of_mem _ hgrest)
    · rw [if_neg hany] at hj
      rcases Option.map_eq_some'.mp hj with ⟨gs'', hgs'', hcons⟩
      subst hcons
      intro g hg
      rcases List.mem_cons.mp hg with hgeq | hgrest
      · subst hgeq; exact hp g (List.mem_cons_self _ _)
      · exact ih gs'' (fun g' hg' => hp g' (List.mem_cons_of_mem _ hg')) hgs'' g hgrest

/-- Class purity is preserved by the whole grouping fold, starting from any
collection of class-pure groups. -/
theorem foldl_joinStep_purity (th : ℚ) (l : List Detection) :
    ∀ gs, (∀ g ∈ gs, ∃ d0 rest, g = d0 :: rest ∧ ∀ x ∈ g, x.class_id = d0.class_id) →
      ∀ g ∈ l.foldl (joinStep th) gs,
        ∃ d0 rest, g = d0 :: rest ∧ ∀ x ∈ g, x.class_id = d0.class_id := by
  induction l with
  | nil => intro gs hp; simpa using hp
  | cons d rest ih =>
    intro gs hp
    rw [List.foldl_cons]
    apply ih
    unfold joinStep
    cases hj : tryJoin th d gs with
    | none =>
      simp only [Option.getD_none]
      intro g hg
      rcases List.mem_append.mp hg with h | h
      · exact hp g h
      · rw [List.mem_singleton.mp h]
        exact ⟨d, [], rfl, by simp⟩
    | some gs' =>
      simpa using tryJoin_purity th d gs gs' hp hj

/-- C8: after processing any prefix of the input detections, every group built
by the clustering step is nonempty and contains only detections whose class_id
equals that of the group's first member; consequently every emitted consensus
detection comes from a qualifying single-class group whose common class is the
consensus detection's own class_id. -/
theorem C8_purity (th : ℚ) (vt : ℕ) (l : List Detection) (k : ℕ) :
    (∀ g ∈ buildGroups th (l.take k),
        ∃ d0 rest, g = d0 :: rest ∧ ∀ x ∈ g, x.class_id = d0.class_id) ∧
    (∀ c ∈ ensemble_voting th vt (l.take k),
        ∃ g, g ∈ buildGroups th (l.take k) ∧ vt ≤ (modelVotes g).length ∧
          ∀ x ∈ g, x.class_id = c.class_id) := by
  have hpure := foldl_joinStep_purity th (l.take k) [] (by simp)
  refine ⟨hpure, ?_⟩
  intro c hc
  unfold ensemble_voting at hc
  cases hl : (l.take k).isEmpty with
  | true => rw [hl] at hc; simp at hc
  | false =>
    rw [hl] at hc
    simp only [if_neg Bool.false_ne_true] at hc
    rcases List.mem_map.mp hc with ⟨g, hg, hcg⟩
    rcases List.mem_filter.mp hg with ⟨hgm, hdec⟩
    rcases hpure g hgm with ⟨d0, r, hE, hall⟩
    refine ⟨g, hgm, of_decide_eq_true hdec, ?_⟩
    intro x hx
    have hcid : c.class_id = d0.class_id := by
      rw [← hcg]
      show headClassId g = d0.class_id
      rw [hE]
      rfl
    exact (hall x hx).trans hcid.symm

/-- C8 (witness): purity and the consensus consequence at the Scenario B
input, whose two same-class detections form one group. -/
theorem C8_purity_witness :
    ∃ g, g ∈ buildGroups (1 / 2) ([dYolo, dDetr].take 2) ∧ 2 ≤ (modelVotes g).length ∧
      ∀ x ∈ g, x.class_id = consensusB.class_id :=
  (C8_purity (1 / 2) 2 [dYolo, dDetr] 2).2 consensusB
    (by rw [show ([dYolo, dDetr].take 2) = [dYolo, dDetr] from rfl, ensembleB_eval]
        exact List.mem_singleton.mpr rfl)


/-- Inserting never yields the empty list. -/
theorem insertByScore_ne_nil (a : Category × Detection) (l : List (Category × Detection)) :
    insertByScore a l ≠ [] := by
  cases l with
  | nil => simp [insertByScore]
  | cons b bs => unfold insertByScore; split <;> simp

/-- Head after a stable descending insertion: the new element wins ties. -/
theorem insertByScore_head (a b : Category × Detection) (bs : List (Category × Detection)) :
    (insertByScore a (b :: bs)).head? = some (if scoreOf b ≤ scoreOf a then a else b) := by
  unfold insertByScore
  split <;> simp_all

/-- The sorted list is empty exactly when the input is. -/
theorem sortByScoreDesc_nil_iff (l : List (Category × Detection)) :
    sortByScoreDesc l = [] ↔ l = [] := by
  cases l with
  | nil => simp [sortByScoreDesc]
  | cons x xs =>
    exact ⟨fun h => absurd h (insertByScore_ne_nil x _), fun h => by simp at h⟩

/-- The head of the stable descending sort is the first score-maximizing
element of the input list. -/
theorem sortByScoreDesc_head_split (l : List (Category × Detection)) (hne : l ≠ []) :
    ∃ h l1 l2, (sortByScoreDesc l).head? = some h ∧ l = l1 ++ h :: l2 ∧
      (∀ t ∈ l1, scoreOf t < scoreOf h) ∧ (∀ t ∈ l2, scoreOf t ≤ scoreOf h) := by
  induction l with
  | nil => exact absurd rfl hne
  | cons x xs ih =>
    cases xs with
    | nil =>
      exact ⟨x, [], [], by simp [sortByScoreDesc, insertByScore], rfl, by simp, by simp⟩
    | cons y ys =>
      rcases ih (by simp) with ⟨h', l1', l2', hhead, hsplit, hlt, hle⟩
      obtain ⟨srest, hs⟩ : ∃ srest, sortByScoreDesc (y :: ys) = h' :: srest := by
        cases hsl : sortByScoreDesc (y :: ys) with
        | nil => rw [hsl] at hhead; simp at hhead
        | cons s0 srest =>
          rw [hsl] at hhead
          simp only [List.head?_cons, Option.some.injEq] at hhead
          exact ⟨srest, by rw [hhead]⟩
      have hsort : sortByScoreDesc (x :: y :: ys) = insertByScore x (sortByScoreDesc (y :: ys)) := rfl
      by_cases hcase : scoreOf h' ≤ scoreOf x
      · refine ⟨x, [], y :: ys, ?_, rfl, by simp, ?_⟩
        · rw [hsort, hs, insertByScore_head, if_pos hcase]
        · intro t ht
          rw [hsplit] at ht
          rcases List.mem_append.mp ht with h1 | h2
          · exact le_trans (le_of_lt (hlt t h1)) hcase
          · rcases List.mem_cons.mp h2 with heq | h3
            · rw [heq]; exact hcase
            · exact le_trans (hle t h3) hcase
      · refine ⟨h', x :: l1', l2', ?_, ?_, ?_, hle⟩
        · rw [hsort, hs, insertByScore_head, if_neg hcase]
        · rw [List.cons_append, ← hsplit]
        · intro t ht
          rcases List.mem_cons.mp ht with heq | h3
          · rw [heq]; exact not_le.mp hcase
          · exact hlt t h3

/-- C9: `get_primary_subject` returns `(None, None)` exactly when all three
category lists are empty; otherwise it returns the first detection in
enumeration order (persons, then animals, then objects, in per-category list
order) among those maximizing area(bbox) × confidence — every earlier subject
scores strictly less and every later subject scores at most as much, matching
Python's stable descending sort followed by taking the first element. -/
theorem C9_primary_subject (d : Categorized) :
    (get_primary_subject d = none ↔ d.person = [] ∧ d.animal = [] ∧ d.object = []) ∧
    (∀ s, get_primary_subject d = some s →
      ∃ l1 l2, allSubjects d = l1 ++ s :: l2 ∧ (∀ t ∈ l1, scoreOf t < scoreOf s) ∧
        (∀ t ∈ l2, scoreOf t ≤ scoreOf s)) := by
  constructor
  · unfold get_primary_subject
    rw [List.head?_eq_none_iff, sortByScoreDesc_nil_iff]
    unfold allSubjects
    simp
  · intro s hs
    have hne : allSubjects d ≠ [] := by
      intro hnil
      unfold get_primary_subject at hs
      rw [hnil] at hs
      simp [sortByScoreDesc] at hs
    rcases sortByScoreDesc_head_split (allSubjects d) hne with ⟨h, l1, l2, hhead, hsplit, hlt, hle⟩
    have hsh : s = h := by
      unfold get_primary_subject at hs
      exact Option.some.inj (hs.symm.trans hhead)
    subst hsh
    exact ⟨l1, l2, hsplit, hlt, hle⟩

/-- C9 (witness): at an exact score tie the person detection, enumerated
first, wins. -/
theorem C9_primary_subject_witness :
    ∃ l1 l2, allSubjects catsW = l1 ++ (Category.person, pW) :: l2 ∧
      (∀ t ∈ l1, scoreOf t < scoreOf (Category.person, pW)) ∧
      (∀ t ∈ l2, scoreOf t ≤ scoreOf (Category.person, pW)) :=
  (C9_primary_subject catsW).2 (Category.person, pW) (by
    norm_num [get_primary_subject, sortByScoreDesc, insertByScore, scoreOf, bboxArea,
      allSubjects, catsW, pW, oW])

/-- `pyint` on a nonnegative value is the floor. -/
theorem pyint_of_nonneg {q : ℚ} (h : 0 ≤ q) : pyint q = ⌊q⌋ := by
  rw [pyint, if_neg (not_lt.mpr h)]

/-- With a positive aspect ratio and positive padded dimensions, both fitted
crop dimensions are positive: the constrained dimension is kept and the other
is enlarged to at least the corresponding padded dimension. -/
theorem fitAspect_pos {ar : ℚ} {pw ph : ℤ} (har : 0 < ar) (hpw : 0 < pw) (hph : 0 < ph) :
    0 < (fitAspect ar pw ph).1 ∧ 0 < (fitAspect ar pw ph).2 := by
  have hpw' : (0 : ℚ) < (pw : ℚ) := by exact_mod_cast hpw
  have hph' : (0 : ℚ) < (ph : ℚ) := by exact_mod_cast hph
  unfold fitAspect
  split
  next hgt =>
    refine ⟨hpw, ?_⟩
    have h1 : (ph : ℚ) < (pw : ℚ) / ar :=
      (lt_div_iff₀ har).mpr (by have := (lt_div_iff₀ hph').mp hgt; linarith)
    show 0 < pyint ((pw : ℚ) / ar)
    rw [pyint_of_nonneg (by positivity)]
    have h2 : ph ≤ ⌊(pw : ℚ) / ar⌋ := Int.le_floor.mpr (le_of_lt h1)
    omega
  next hle =>
    push_neg at hle
    refine ⟨?_, hph⟩
    have h1 : (pw : ℚ) ≤ (ph : ℚ) * ar := by
      have := (div_le_iff₀ hph').mp hle
      linarith
    show 0 < pyint ((ph : ℚ) * ar)
    rw [pyint_of_nonneg (by positivity)]
    have h2 : pw ≤ ⌊(ph : ℚ) * ar⌋ := Int.le_floor.mpr h1
    omega

/-- The frame-bound scale-down leaves both crop dimensions within the frame:
either they already fit, or multiplying by the minimum of the two shrink
ratios and truncating bounds each dimension by the frame. -/
theorem scaleToFrame_le {fw fh cw ch : ℤ} (hfw : 0 < fw) (hfh : 0 < fh)
    (hcw : 0 < cw) (hch : 0 < ch) :
    (scaleToFrame fw fh cw ch).1 ≤ fw ∧ (scaleToFrame fw fh cw ch).2 ≤ fh := by
  have hcw' : (0 : ℚ) < (cw : ℚ) := by exact_mod_cast hcw
  have hch' : (0 : ℚ) < (ch : ℚ) := by exact_mod_cast hch
  have hfw' : (0 : ℚ) < (fw : ℚ) := by exact_mod_cast hfw
  have hfh' : (0 : ℚ) < (fh : ℚ) := by exact_mod_cast hfh
  unfold scaleToFrame
  split
  next hbig =>
    have hsc0 : 0 ≤ min ((fw : ℚ) / (cw : ℚ)) ((fh : ℚ) / (ch : ℚ)) :=
      le_min (by positivity) (by positivity)
    constructor
    · show pyint ((cw : ℚ) * min ((fw : ℚ) / (cw : ℚ)) ((fh : ℚ) / (ch : ℚ))) ≤ fw
      have h1 : (cw : ℚ) * min ((fw : ℚ) / (cw : ℚ)) ((fh : ℚ) / (ch : ℚ)) ≤
          (cw : ℚ) * ((fw : ℚ) / (cw : ℚ)) :=
        mul_le_mul_of_nonneg_left (min_le_left _ _) (le_of_lt hcw')
      have h2 : (cw : ℚ) * ((fw : ℚ) / (cw : ℚ)) = (fw : ℚ) := by
        field_simp
      rw [pyint_of_nonneg (mul_nonneg (le_of_lt hcw') hsc0)]
      calc ⌊(cw : ℚ) * min ((fw : ℚ) / (cw : ℚ)) ((fh : ℚ) / (ch : ℚ))⌋
          ≤ ⌊(fw : ℚ)⌋ := Int.floor_mono (le_trans h1 (le_of_eq h2))
        _ = fw := Int.floor_intCast fw
    · show pyint ((ch : ℚ) * min ((fw : ℚ) / (cw : ℚ)) ((fh : ℚ) / (ch : ℚ))) ≤ fh
      have h1 : (ch : ℚ) * min ((fw : ℚ) / (cw : ℚ)) ((fh : ℚ) / (ch : ℚ)) ≤
          (ch : ℚ) * ((fh : ℚ) / (ch : ℚ)) :=
        mul_le_mul_of_nonneg_left (min_le_right _ _) (le_of_lt hch')
      have h2 : (ch : ℚ) * ((fh : ℚ) / (ch : ℚ)) = (fh : ℚ) := by
        field_simp
      rw [pyint_of_nonneg (mul_nonneg (le_of_lt hch') hsc0)]
      calc ⌊(ch : ℚ) * min ((fw : ℚ) / (cw : ℚ)) ((fh : ℚ) / (ch : ℚ))⌋
          ≤ ⌊(fh : ℚ)⌋ := Int.floor_mono (le_trans h1 (le_of_eq h2))
        _ = fh := Int.floor_intCast fh
  next hok =>
    push_neg at hok
    exact ⟨hok.1, hok.2⟩

/-- The positioning clamp lands in [0, limit] whenever the limit is
nonnegative. -/
theorem clampPos_bounds (c M : ℤ) (hM : 0 ≤ M) : 0 ≤ clampPos c M ∧ clampPos c M ≤ M :=
  ⟨le_max_left 0 _, max_le hM (min_le_right c M)⟩

/-- C5: for every valid input (positive aspect ratio and frame dimensions,
nonnegative minimum padding, nondegenerate subject bbox inside the frame, any
category and head-space ratio), the crop box produced by `calculate_crop_box`
is fully contained in the frame: `0 ≤ x`, `0 ≤ y`, `x + width ≤ frame_width`,
`y + height ≤ frame_height` — including after the scale-down, head-room shift
and edge clamping. -/
theorem C5_containment (ar : ℚ) (mp fh fw : ℤ) (bb : BBox) (cat : Category) (hsr : ℚ)
    (har : 0 < ar) (hmp : 0 ≤ mp) (hfh : 0 < fh) (hfw : 0 < fw)
    (hx12 : bb.x1 < bb.x2) (hy12 : bb.y1 < bb.y2)
    (_hx1 : 0 ≤ bb.x1) (_hy1 : 0 ≤ bb.y1) (_hx2 : bb.x2 ≤ fw) (_hy2 : bb.y2 ≤ fh)
    (x y w h : ℤ)
    (hres : calculate_crop_box ar mp fh fw bb cat hsr = some (x, y, w, h)) :
    0 ≤ x ∧ 0 ≤ y ∧ x + w ≤ fw ∧ y + h ≤ fh := by
  have hpw : 0 < bb.x2 - bb.x1 + 2 * mp := by omega
  have hph : 0 < bb.y2 - bb.y1 + 2 * mp := by omega
  have hfit := fitAspect_pos har hpw hph
  have hsc := scaleToFrame_le hfw hfh hfit.1 hfit.2
  unfold calculate_crop_box at hres
  simp only [Option.some.injEq, Prod.mk.injEq] at hres
  obtain ⟨hxe, hye, hwe, hhe⟩ := hres
  subst hwe
  subst hhe
  subst hxe
  subst hye
  rcases hsc with ⟨hW, hH⟩
  unfold clampPos
  refine ⟨?_, ?_, ?_, ?_⟩ <;> omega

/-- Evaluation of the fit step at the Scenario A numbers: padded 1200×1300 is
width-constrained for 9:16 and the height grows to 2133. -/
theorem fitA_eval : fitAspect (9 / 16) 1200 1300 = (1200, 2133) := by
  unfold fitAspect
  rw [if_pos (by norm_num)]
  norm_num [pyint, Int.floor_eq_iff]

/-- Evaluation of the scale-down: 1200×2133 exceeds the 1080×1920 frame and
shrinks by 9/10 to 1080×1919. -/
theorem scaleA_eval : scaleToFrame 1080 1920 1200 2133 = (1080, 1919) := by
  unfold scaleToFrame
  rw [if_pos (by norm_num)]
  norm_num [min_def, pyint, Int.floor_eq_iff]

/-- Evaluation of `calculate_crop_box` at the Scenario A input: frame
1920×1080 (height×width), subject [800, 400, 1000, 700], padding 500, target
9:16 — the crop (0, 0, 1080, 1919) is produced. -/
theorem cropA_eval :
    calculate_crop_box (9 / 16) 500 1920 1080 bbA Category.object 0 = some (0, 0, 1080, 1919) := by
  unfold calculate_crop_box
  norm_num [bbA]
  rw [fitA_eval]
  norm_num
  rw [scaleA_eval]
  norm_num [adjustCenterY]
  decide

/-- C5 (witness): containment holds at the Scenario A input. -/
theorem C5_containment_witness :
    0 ≤ (0 : ℤ) ∧ 0 ≤ (0 : ℤ) ∧ (0 : ℤ) + 1080 ≤ 1080 ∧ (0 : ℤ) + 1919 ≤ 1920 :=
  C5_containment (9 / 16) 500 1920 1080 bbA Category.object 0
    (by norm_num) (by norm_num) (by norm_num) (by norm_num)
    (by decide) (by decide) (by decide) (by decide) (by decide) (by decide)
    0 0 1080 1919 cropA_eval

/-- Full characterization of the unified turbo read loop under a persistent
cancellation signal first firing at iteration `K`: exactly
`min (K - iter) rem.length` further frames are read, and the frames handed to
`_process_batch` are the prior flushes, the pending batch, and every sampled
frame among those read — nothing accumulated is lost. -/
theorem turboStopLoop_eval {α : Type} (K interval bs : ℕ) :
    ∀ (rem : List α) (iter cnt : ℕ) (batch acc : List α),
      turboStopLoop (fun i => decide (K ≤ i)) interval bs rem iter cnt batch acc =
        (acc ++ batch ++ sampledFrom interval cnt (rem.take (K - iter)),
         cnt + min (K - iter) rem.length) := by
  intro rem
  induction rem with
  | nil =>
    intro iter cnt batch acc
    rw [turboStopLoop]
    by_cases hK : K ≤ iter
    · rw [if_pos (by simpa using hK)]
      simp [Nat.sub_eq_zero_of_le hK, sampledFrom]
    · rw [if_neg (by simpa using hK)]
      simp [sampledFrom]
  | cons f rest ih =>
    intro iter cnt batch acc
    rw [turboStopLoop]
    by_cases hK : K ≤ iter
    · rw [if_pos (by simpa using hK)]
      simp [Nat.sub_eq_zero_of_le hK, sampledFrom]
    · rw [if_neg (by simpa using hK)]
      have hsub : K - iter = (K - (iter + 1)) + 1 := by omega
      simp only []
      by_cases hmod : (cnt + 1) % interval = 0
      · rw [if_pos hmod]
        by_cases hbs : bs ≤ (batch ++ [f]).length
        · rw [if_pos hbs, ih]
          rw [hsub]
          simp only [List.take_succ_cons, sampledFrom, if_pos hmod]
          simp only [Prod.mk.injEq, List.length_cons]
          exact ⟨by simp, by omega⟩
        · rw [if_neg hbs, ih]
          rw [hsub]
          simp only [List.take_succ_cons, sampledFrom, if_pos hmod]
          simp only [Prod.mk.injEq, List.length_cons]
          exact ⟨by simp, by omega⟩
      · rw [if_neg hmod]
        rw [ih]
        rw [hsub]
        simp only [List.take_succ_cons, sampledFrom, if_neg hmod]
        simp only [Prod.mk.injEq, List.length_cons]
        exact ⟨by simp, by omega⟩

/-- The optimized processor's read loop reads exactly the same number of
frames under the same cancellation signal (its stop branch differs only in
dropping the pending batch). -/
theorem optStopLoop_reads {α : Type} (K interval bs : ℕ) :
    ∀ (rem : List α) (iter cnt : ℕ) (batch acc : List α),
      (optStopLoop (fun i => decide (K ≤ i)) interval bs rem iter cnt batch acc).2 =
        cnt + min (K - iter) rem.length := by
  intro rem
  induction rem with
  | nil =>
    intro iter cnt batch acc
    rw [optStopLoop]
    by_cases hK : K ≤ iter
    · rw [if_pos (by simpa using hK)]
      simp [Nat.sub_eq_zero_of_le hK]
    · rw [if_neg (by simpa using hK)]
      simp
  | cons f rest ih =>
    intro iter cnt batch acc
    rw [optStopLoop]
    by_cases hK : K ≤ iter
    · rw [if_pos (by simpa using hK)]
      simp [Nat.sub_eq_zero_of_le hK]
    · rw [if_neg (by simpa using hK)]
      simp only []
      by_cases hmod : (cnt + 1) % interval = 0
      · rw [if_pos hmod]
        by_cases hbs : bs ≤ (batch ++ [f]).length
        · rw [if_pos hbs, ih]
          simp only [List.length_cons]
          omega
        · rw [if_neg hbs, ih]
          simp only [List.length_cons]
          omega
      · rw [if_neg hmod]
        rw [ih]
        simp only [List.length_cons]
        omega

/-- C4 (amended): under a cancellation signal first firing at iteration `K`,
the unified turbo driver processes exactly the sampled frames among the
`min K frames.length` frames read — the pending partial batch is flushed and
no frame is read after the signal; the optimized driver reads the same number
of frames (but, per the counterexample, discards its pending partial batch on
cancellation instead of flushing it). -/
theorem C4_flush {α : Type} (frames : List α) (K interval bs : ℕ) :
    turboStopRun K interval bs frames =
      (sampledFrom interval 0 (frames.take K), min K frames.length) ∧
    (optStopRun K interval bs frames).2 = min K frames.length := by
  constructor
  · rw [turboStopRun, turboStopLoop_eval]
    simp
  · rw [optStopRun, optStopLoop_reads]
    simp

/-- C4 (counterexample): one frame, sampling interval 1, batch size 4, stop
signal at iteration 1.  The frame is read and accumulated in both drivers, but
`OptimizedVideoProcessor.process_video` stops without processing it (its stop
branch lacks the flush), while the unified turbo driver flushes it. -/
theorem C4_cex :
    optStopRun 1 1 4 [(37 : ℕ)] = ([], 1) ∧ turboStopRun 1 1 4 [(37 : ℕ)] = ([37], 1) := by
  exact ⟨by decide, by decide⟩

/-- Processing a frame commutes with a pending `skipped_text` bump (the two
touch disjoint fields). -/
theorem procStep_bumpText (st : DriverState) (f : FrameEval) :
    procStep (bumpText st) f = bumpText (procStep st f) := by
  unfold procStep bumpText bumpProcessed applyOutcome
  cases f.outcome with
  | noDetection => rfl
  | cropNone => rfl
  | lowQuality => rfl
  | saved cat => cases cat <;> rfl

/-- One phase 2 step commutes with one phase 1 step of `_process_batch`. -/
theorem maskStep_gateStep (p : GateCfg) (st : DriverState) (f g : FrameEval) :
    maskStep p (gateStep p st g) f = gateStep p (maskStep p st f) g := by
  unfold maskStep gateStep
  by_cases hg : textGate p g <;> by_cases hf : textGate p f <;>
    simp [hg, hf, procStep_bumpText]

/-- One phase 2 step commutes with the whole phase 1 pass. -/
theorem maskStep_foldl_gateStep (p : GateCfg) (f : FrameEval) :
    ∀ (b : List FrameEval) (st : DriverState),
      maskStep p (b.foldl (gateStep p) st) f = b.foldl (gateStep p) (maskStep p st f) := by
  intro b
  induction b with
  | nil => intro st; rfl
  | cons g rest ih =>
    intro st
    simp only [List.foldl_cons]
    rw [ih, maskStep_gateStep]

/-- `_process_batch` equals the left fold of the combined per-frame effect:
the two passes over the batch can be interleaved frame by frame. -/
theorem processBatch_eq_foldl (p : GateCfg) :
    ∀ (b : List FrameEval) (st : DriverState),
      processBatch p st b = b.foldl (tStep p) st := by
  intro b
  induction b with
  | nil => intro st; rfl
  | cons f rest ih =>
    intro st
    unfold processBatch
    simp only [List.foldl_cons]
    rw [maskStep_foldl_gateStep]
    have h1 : rest.foldl (maskStep p) (rest.foldl (gateStep p) (maskStep p (gateStep p st f) f)) =
        processBatch p (maskStep p (gateStep p st f) f) rest := rfl
    rw [h1, ih]
    have h2 : maskStep p (gateStep p st f) f = tStep p st f := by
      unfold maskStep gateStep tStep
      by_cases hf : textGate p f <;> simp [hf]
    rw [h2]

/-- The turbo accumulation loop equals the fold of the combined per-frame
effect over the pending batch and the remaining frames, for any batch size. -/
theorem turboLoop_eq_foldl (p : GateCfg) (bs : ℕ) :
    ∀ (rem batch : List FrameEval) (st : DriverState),
      turboLoop p bs rem batch st = (batch ++ rem).foldl (tStep p) st := by
  intro rem
  induction rem with
  | nil =>
    intro batch st
    rw [turboLoop]
    cases hb : batch.isEmpty
    · rw [if_neg (by simp [hb])]
      rw [processBatch_eq_foldl]
      simp
    · rw [if_pos rfl]
      rw [List.isEmpty_iff.mp hb]
      rfl
  | cons f rest ih =>
    intro batch st
    rw [turboLoop]
    by_cases hbs : bs ≤ (batch ++ [f]).length
    · rw [if_pos hbs, ih, processBatch_eq_foldl]
      rw [← List.foldl_append]
      simp
    · rw [if_neg hbs, ih]
      simp

/-- The turbo driver is the fold of the combined per-frame effect. -/
theorem turboRun_eq_foldl (p : GateCfg) (bs : ℕ) (frames : List FrameEval) :
    turboRun p bs frames = frames.foldl (tStep p) (emptyStats, []) := by
  rw [turboRun, turboLoop_eq_foldl]
  rfl

/-- One frame preserves the turbo/standard correspondence. -/
theorem tStep_stdStep_rel (p : GateCfg) (f : FrameEval) (s t : DriverState)
    (h : DriverRel s t) : DriverRel (tStep p s f) (stdStep p t f) := by
  obtain ⟨h2, hsa, hsk, hnd, hp, ha, ho, hpr⟩ := h
  unfold DriverRel tStep stdStep procStep bumpText bumpProcessed applyOutcome
  by_cases hg : textGate p f
  · simp only [if_pos hg]
    refine ⟨?_, ?_, ?_, ?_, ?_, ?_, ?_, ?_⟩ <;> simp_all <;> omega
  · simp only [if_neg hg]
    cases f.outcome with
    | noDetection =>
      refine ⟨?_, ?_, ?_, ?_, ?_, ?_, ?_, ?_⟩ <;> simp_all <;> omega
    | cropNone =>
      refine ⟨?_, ?_, ?_, ?_, ?_, ?_, ?_, ?_⟩ <;> simp_all <;> omega
    | lowQuality =>
      refine ⟨?_, ?_, ?_, ?_, ?_, ?_, ?_, ?_⟩ <;> simp_all <;> omega
    | saved cat =>
      cases cat <;> unfold bumpCat <;>
        (refine ⟨?_, ?_, ?_, ?_, ?_, ?_, ?_, ?_⟩ <;> simp_all <;> omega)

/-- The turbo/standard correspondence is preserved over any frame sequence. -/
theorem foldl_rel (p : GateCfg) :
    ∀ (frames : List FrameEval) (s t : DriverState), DriverRel s t →
      DriverRel (frames.foldl (tStep p) s) (frames.foldl (stdStep p) t) := by
  intro frames
  induction frames with
  | nil => intro s t h; exact h
  | cons f rest ih =>
    intro s t h
    simp only [List.foldl_cons]
    exact ih _ _ (tStep_stdStep_rel p f s t h)

/-- C3 (amended): over the same sequence of sampled frames with identical
per-frame oracle results, the standard and turbo drivers produce the same
save log and identical saved_frames, skipped_text, skipped_no_detection and
per-category counters, for every batch size; `processed_frames` differs: the
turbo driver does not count text-skipped frames as processed, so
turbo.processed_frames + skipped_text = standard.processed_frames. -/
theorem C3_equiv (p : GateCfg) (bs : ℕ) (frames : List FrameEval) :
    DriverRel (turboRun p bs frames) (stdRun p frames) := by
  rw [turboRun_eq_foldl, stdRun]
  exact foldl_rel p frames _ _ ⟨rfl, rfl, rfl, rfl, rfl, rfl, rfl, rfl⟩

/-- C3 (counterexample): a single sampled frame flagged by the text check —
the standard driver counts it in `processed_frames` (before the gate), the
turbo driver does not, so the two drivers do NOT finish with identical
statistics counters. -/
theorem C3_cex :
    (stdRun gateAll [fTxt]).1.processed_frames = 1 ∧
    (turboRun gateAll 4 [fTxt]).1.processed_frames = 0 := by
  exact ⟨rfl, rfl⟩

/-- One standard-driver frame preserves saved = person + animal + object and
saved = number of images written. -/
theorem stdStep_counterInv (p : GateCfg) (f : FrameEval) (st : DriverState)
    (h1 : st.1.saved_frames = st.1.person_frames + st.1.animal_frames + st.1.object_frames)
    (h2 : st.1.saved_frames = st.2.length) :
    (stdStep p st f).1.saved_frames = (stdStep p st f).1.person_frames +
      (stdStep p st f).1.animal_frames + (stdStep p st f).1.object_frames ∧
    (stdStep p st f).1.saved_frames = (stdStep p st f).2.length := by
  unfold stdStep bumpText bumpProcessed applyOutcome
  by_cases hg : textGate p f
  · simp only [if_pos hg]
    exact ⟨by simp_all, by simp_all⟩
  · simp only [if_neg hg]
    cases f.outcome with
    | noDetection => exact ⟨by simp_all, by simp_all⟩
    | cropNone => exact ⟨by simp_all, by simp_all⟩
    | lowQuality => exact ⟨by simp_all, by simp_all⟩
    | saved cat =>
      cases cat <;> unfold bumpCat <;>
        exact ⟨by simp_all; omega, by simp_all⟩

/-- One turbo-driver frame preserves saved = person + animal + object and
saved = number of images written. -/
theorem tStep_counterInv (p : GateCfg) (f : FrameEval) (st : DriverState)
    (h1 : st.1.saved_frames = st.1.person_frames + st.1.animal_frames + st.1.object_frames)
    (h2 : st.1.saved_frames = st.2.length) :
    (tStep p st f).1.saved_frames = (tStep p st f).1.person_frames +
      (tStep p st f).1.animal_frames + (tStep p st f).1.object_frames ∧
    (tStep p st f).1.saved_frames = (tStep p st f).2.length := by
  unfold tStep procStep bumpText bumpProcessed applyOutcome
  by_cases hg : textGate p f
  · simp only [if_pos hg]
    exact ⟨by simp_all, by simp_all⟩
  · simp only [if_neg hg]
    cases f.outcome with
    | noDetection => exact ⟨by simp_all, by simp_all⟩
    | cropNone => exact ⟨by simp_all, by simp_all⟩
    | lowQuality => exact ⟨by simp_all, by simp_all⟩
    | saved cat =>
      cases cat <;> unfold bumpCat <;>
        exact ⟨by simp_all; omega, by simp_all⟩

/-- The standard-driver counter invariant holds after any frame sequence. -/
theorem foldl_stdStep_counterInv (p : GateCfg) :
    ∀ (l : List FrameEval) (st : DriverState),
      st.1.saved_frames = st.1.person_frames + st.1.animal_frames + st.1.object_frames →
      st.1.saved_frames = st.2.length →
      (l.foldl (stdStep p) st).1.saved_frames = (l.foldl (stdStep p) st).1.person_frames +
        (l.foldl (stdStep p) st).1.animal_frames + (l.foldl (stdStep p) st).1.object_frames ∧
      (l.foldl (stdStep p) st).1.saved_frames = (l.foldl (stdStep p) st).2.length := by
  intro l
  induction l with
  | nil => intro st h1 h2; exact ⟨h1, h2⟩
  | cons f rest ih =>
    intro st h1 h2
    simp only [List.foldl_cons]
    have h := stdStep_counterInv p f st h1 h2
    exact ih _ h.1 h.2

/-- The turbo-driver counter invariant holds after any frame sequence. -/
theorem foldl_tStep_counterInv (p : GateCfg) :
    ∀ (l : List FrameEval) (st : DriverState),
      st.1.saved_frames = st.1.person_frames + st.1.animal_frames + st.1.object_frames →
      st.1.saved_frames = st.2.length →
      (l.foldl (tStep p) st).1.saved_frames = (l.foldl (tStep p) st).1.person_frames +
        (l.foldl (tStep p) st).1.animal_frames + (l.foldl (tStep p) st).1.object_frames ∧
      (l.foldl (tStep p) st).1.saved_frames = (l.foldl (tStep p) st).2.length := by
  intro l
  induction l with
  | nil => intro st h1 h2; exact ⟨h1, h2⟩
  | cons f rest ih =>
    intro st h1 h2
    simp only [List.foldl_cons]
    have h := tStep_counterInv p f st h1 h2
    exact ih _ h.1 h.2

/-- C10: in both drivers, starting from all-zero statistics, after any prefix
of the sampled frames the counters satisfy
saved_frames = person_frames + animal_frames + object_frames, and saved_frames
equals the number of images written (one write per save). -/
theorem C10_counters (p : GateCfg) (bs : ℕ) (frames : List FrameEval) (k : ℕ) :
    ((stdRun p (frames.take k)).1.saved_frames = (stdRun p (frames.take k)).1.person_frames +
        (stdRun p (frames.take k)).1.animal_frames + (stdRun p (frames.take k)).1.object_frames ∧
      (stdRun p (frames.take k)).1.saved_frames = (stdRun p (frames.take k)).2.length) ∧
    ((turboRun p bs (frames.take k)).1.saved_frames = (turboRun p bs (frames.take k)).1.person_frames +
        (turboRun p bs (frames.take k)).1.animal_frames + (turboRun p bs (frames.take k)).1.object_frames ∧
      (turboRun p bs (frames.take k)).1.saved_frames = (turboRun p bs (frames.take k)).2.length) := by
  constructor
  · exact foldl_stdStep_counterInv p (frames.take k) (emptyStats, []) rfl rfl
  · rw [turboRun_eq_foldl]
    exact foldl_tStep_counterInv p (frames.take k) (emptyStats, []) rfl rfl
